import Mathlib

/-!
Verification of the secret-shared multi-party inference service described by
the PySyft tutorial notebook (Syft Keras + TF Encrypted serving).  The library
code that implements sharing and serving is not part of the repository
snapshot, so the definitions below are modelled from the specification of the
core system (ShareEncoder, PartyRuntime, Cluster, SecureModel, RequestQueue).
-/

namespace PySyftTFE

/-- Fixed-point machine words used by the secure runtime: the integers modulo
2^64.  Quantization of real numbers into such words is performed by the
external secure-computation runtime and is out of scope. -/
abbrev Word : Type := ZMod (2 ^ 64)

/-- A numeric tensor of a given flat length, with fixed-point word entries. -/
abbrev Tensor (len : Nat) : Type := Fin len → Word

/-- Modelled from the spec: ShareEncoder.encode(tensor, numParties) for
numParties = n + 2 (the spec requires at least two parties).  The n + 1
random mask tensors r are the random input of the scheme; party 0 receives
the tensor minus the sum of all masks and party j + 1 receives mask j, so the
shares are additive and sum back to the tensor. -/
def encode (n len : Nat) (T : Tensor len) (r : Fin (n + 1) → Tensor len) :
    Fin (n + 2) → Tensor len :=
  fun i => Fin.cases (T - ∑ j, r j) (fun j => r j) i

/-- Modelled from the spec: ShareEncoder.reconstruct(shares), given the full
set of shares of all N parties: the shares are summed back together. -/
def reconstruct (N len : Nat) (shares : Fin N → Tensor len) : Tensor len :=
  ∑ i, shares i

/-- The error taxonomy of the serving core, from the spec, plus two error
kinds the spec leaves unnamed: InvalidState for a lifecycle call made from a
phase in which it is not valid, and ShareDeliveryFailed for a failure while
distributing share slices to the parties. -/
inductive Err : Type
  | BindError
  | ClusterStartTimeout
  | ClusterNotReady
  | ProtocolTimeout
  | BudgetExhausted
  | UnknownRequest
  | AlreadyStopped
  | InvalidState
  | ShareDeliveryFailed
  deriving DecidableEq

/-- The SecureModel lifecycle phases from the spec, plus the Exhausted phase
the RequestQueue enters when a finite request budget is reached. -/
inductive Phase : Type
  | Plain
  | Shared
  | Serving
  | Exhausted
  | Stopped
  deriving DecidableEq

/-- Modelled from the spec: one Party (a PartyRuntime on a TFEWorker).
running is its serving state, stopped records a completed PartyRuntime stop,
held is an abstract handle to the ShareSet slice it physically holds (none if
no secret was distributed to it), and osAlive says whether the worker
operating-system process is alive. -/
structure Party : Type where
  running : Bool
  stopped : Bool
  held : Option Nat
  osAlive : Bool
  deriving DecidableEq

/-- Modelled from the spec: the combined state of a secure-serving session:
the SecureModel phase, whether Cluster.start has completed, the management
mode fixed at construction (autoManaged false = externally managed), the
Parties, the configured request budget and the count of requests served. -/
structure Sys : Type where
  phase : Phase
  clusterStarted : Bool
  autoManaged : Bool
  parties : List Party
  budget : Option Nat
  served : Nat
  deriving DecidableEq

/-- The ShareSet slices physically held by the parties, in cluster order. -/
def heldShares (s : Sys) : List (Option Nat) := s.parties.map Party.held

/-- Modelled from the spec: Cluster.start().  The readiness outcome ready i
records whether party i reported ready before the timeout elapsed; these
outcomes are an input because real elapsed time is outside the model.  If all
parties reported ready the cluster comes up with every party serving;
otherwise start fails with ClusterStartTimeout and leaves no party serving
(all-or-nothing startup). -/
def clusterStart (s : Sys) (ready : Nat → Bool) : Sys × Option Err :=
  if (List.range s.parties.length).all ready then
    ({ s with clusterStarted := true,
              parties := s.parties.map fun p => { p with running := true } }, none)
  else
    ({ s with clusterStarted := false,
              parties := s.parties.map fun p => { p with running := false } },
      some Err.ClusterStartTimeout)

/-- Modelled from the spec: SecureModel.share(cluster).  deliver i records
whether delivering party i its slice succeeds and slice i is the handle of
that slice.  The call fails with ClusterNotReady if the cluster has not
completed start, is valid only from the Plain phase, and is all-or-nothing:
if any delivery fails, the whole operation aborts and every party keeps
exactly what it held before. -/
def share (s : Sys) (deliver : Nat → Bool) (slice : Nat → Nat) :
    Sys × Option Err :=
  if s.clusterStarted = false then (s, some Err.ClusterNotReady)
  else if s.phase ≠ Phase.Plain then (s, some Err.InvalidState)
  else if (List.range s.parties.length).all deliver then
    ({ s with phase := Phase.Shared,
              parties := s.parties.mapIdx fun i p => { p with held := some (slice i) } },
      none)
  else (s, some Err.ShareDeliveryFailed)

/-- Modelled from the spec: SecureModel.serve(requestBudget?).  Valid only
from Shared or Serving; starts the RequestQueue with the given budget;
idempotent re-entry while Serving updates the budget only if unset. -/
def serve (s : Sys) (requestBudget : Option Nat) : Sys × Option Err :=
  if s.phase = Phase.Shared then
    ({ s with phase := Phase.Serving, budget := requestBudget, served := 0 }, none)
  else if s.phase = Phase.Serving then
    (if s.budget = none then { s with budget := requestBudget } else s, none)
  else (s, some Err.InvalidState)

/-- Modelled from the spec: admission of one inference request by the
RequestQueue.  While Serving with no budget the request is served; with a
finite budget the request is served while the count is below the budget, and
reaching the budget transitions the loop to Exhausted; in Exhausted every
request fails with BudgetExhausted.  No branch touches the parties, so the
secret shares are never affected. -/
def request (s : Sys) : Sys × Option Err :=
  if s.phase = Phase.Serving then
    match s.budget with
    | none => ({ s with served := s.served + 1 }, none)
    | some k =>
      if s.served < k then
        (if s.served + 1 = k then
          { s with served := s.served + 1, phase := Phase.Exhausted }
        else { s with served := s.served + 1 }, none)
      else (s, some Err.BudgetExhausted)
  else if s.phase = Phase.Exhausted then (s, some Err.BudgetExhausted)
  else (s, some Err.InvalidState)

/-- The session state after j inference requests have been accepted. -/
def afterRequests (s : Sys) : Nat → Sys
  | 0 => s
  | j + 1 => (request (afterRequests s j)).1

/-- Modelled from the spec: SecureModel.stop().  Valid from any phase: it
drains the RequestQueue, transitions to Stopped and leaves the secret shares
on the parties untouched. -/
def modelStop (s : Sys) : Sys × Option Err :=
  ({ s with phase := Phase.Stopped }, none)

/-- Modelled from the spec: PartyRuntime.stop().  Releases resources and
refuses new requests; a second call fails with AlreadyStopped (the
error-returning policy of the spec, adopted consistently). -/
def partyStop (p : Party) : Party × Option Err :=
  if p.stopped then (p, some Err.AlreadyStopped)
  else ({ p with running := false, stopped := true }, none)

/-- Modelled from the spec: Cluster.stop().  Sends stop to every party
(best-effort, a single failure does not block the others); in self-managed
mode it also terminates the worker processes it spawned, while in externally
managed mode the worker operating-system processes are left to the caller. -/
def clusterStop (s : Sys) : Sys × Option Err :=
  ({ s with clusterStarted := false,
            parties := s.parties.map fun p =>
              { p with running := false, stopped := true,
                       osAlive := if s.autoManaged then false else p.osAlive } },
    none)

/-- The manual cleanup the notebook performs when AUTO = False: killing the
worker operating-system processes by process id. -/
def killWorkers (s : Sys) : Sys :=
  { s with parties := s.parties.map fun p => { p with osAlive := false } }

/-- A freshly configured TFEWorker process: not yet serving, not stopped,
holding no secret, with its operating-system process alive. -/
def freshParty : Party :=
  { running := false, stopped := false, held := none, osAlive := true }

/-- The initial session of the notebook: three externally managed workers
(alice, bob and carol with AUTO = False), model still Plain, cluster not
started, no budget. -/
def notebookInit : Sys :=
  { phase := Phase.Plain, clusterStarted := false, autoManaged := false,
    parties := [freshParty, freshParty, freshParty], budget := none, served := 0 }

/-- The notebook session just before cluster.stop() is invoked, after j
prediction requests were accepted: cluster.start(), model.share(cluster),
model.serve(num_requests = 3), then model.stop(). -/
def beforeClusterStop (j : Nat) : Sys :=
  (modelStop (afterRequests
    ((serve ((share ((clusterStart notebookInit (fun _ => true)).1)
      (fun _ => true) (fun i => i)).1) (some 3)).1) j)).1

/-- Concrete deliver and slice inputs used by the concrete instantiations:
every delivery succeeds and party i receives slice handle i. -/
def dTrue : Nat → Bool := fun _ => true

/-- Slice handles in party order. -/
def slId : Nat → Nat := fun i => i

/-- A ready, not yet shared session: the cluster has completed start and the
model is still Plain. -/
def readyPlainSys : Sys :=
  (clusterStart notebookInit (fun _ => true)).1

/-- A session whose cluster never completed start. -/
def unreadySys : Sys := notebookInit

/-- A serving session with request budget 2 and no request served yet. -/
def servingSys : Sys :=
  (serve ((share readyPlainSys dTrue slId).1) (some 2)).1

/-- C1: for every tensor T and every party count N = n + 2 ≥ 2, and every
choice of random masks, reconstructing the full share set produced by encode
yields T again exactly (over the fixed-point word domain). -/
theorem reconstruct_encode (n len : Nat) (T : Tensor len)
    (r : Fin (n + 1) → Tensor len) :
    reconstruct (n + 2) len (encode n len T r) = T := by
  unfold reconstruct encode
  rw [Fin.sum_univ_succ]
  simp

/-- C7: perfect secrecy of the sharing scheme.  For every strict subset S of
the parties and any two tensors T and T2 of the same shape, there is a
bijection of the mask-randomness space under which the shares seen by S for
secret T coincide with those for secret T2.  Since the masks are drawn
uniformly, the distribution of the shares held by any strict subset is thus
identical for every secret: no statistical test can distinguish them. -/
theorem share_secrecy (n len : Nat) (S : Finset (Fin (n + 2)))
    (hS : S ≠ Finset.univ) (T T2 : Tensor len) :
    ∃ σ : (Fin (n + 1) → Tensor len) ≃ (Fin (n + 1) → Tensor len),
      ∀ r : Fin (n + 1) → Tensor len, ∀ i ∈ S,
        encode n len T r i = encode n len T2 (σ r) i := by
  have hex : ∃ j, j ∉ S := by
    by_contra h
    push_neg at h
    exact hS (Finset.eq_univ_iff_forall.mpr h)
  obtain ⟨j, hj⟩ := hex
  induction j using Fin.cases with
  | zero =>
    refine ⟨Equiv.refl _, fun r i hi => ?_⟩
    induction i using Fin.cases with
    | zero => exact absurd hi hj
    | succ m => simp [encode]
  | succ k =>
    refine ⟨Equiv.addRight
      (Function.update (0 : Fin (n + 1) → Tensor len) k (T2 - T)),
      fun r i hi => ?_⟩
    have hsum : ∑ m, Function.update (0 : Fin (n + 1) → Tensor len) k (T2 - T) m
        = T2 - T := by
      rw [Finset.sum_update_of_mem (Finset.mem_univ k)]
      simp
    induction i using Fin.cases with
    | zero =>
      simp only [encode, Fin.cases_zero, Equiv.coe_addRight]
      have hadd : ∑ m, (r + Function.update (0 : Fin (n + 1) → Tensor len) k (T2 - T)) m
          = (∑ m, r m) + (T2 - T) := by
        simp only [Pi.add_apply, Finset.sum_add_distrib, hsum]
      rw [hadd]
      abel
    | succ m =>
      have hmk : m ≠ k := by
        rintro rfl
        exact hj hi
      simp only [encode, Fin.cases_succ, Equiv.coe_addRight, Pi.add_apply,
        Function.update_noteq hmk, Pi.zero_apply, add_zero]

/-- Witness for C7 at a concrete strict subset of a two-party cluster. -/
theorem share_secrecy_witness :
    ({0} : Finset (Fin 2)) ≠ Finset.univ ∧
    ∃ σ : (Fin 1 → Tensor 1) ≃ (Fin 1 → Tensor 1),
      ∀ r : Fin 1 → Tensor 1, ∀ i ∈ ({0} : Finset (Fin 2)),
        encode 0 1 (fun _ => 0) r i = encode 0 1 (fun _ => 1) (σ r) i :=
  ⟨by decide, share_secrecy 0 1 {0} (by decide) (fun _ => 0) (fun _ => 1)⟩

/-- C5: whenever some party fails to report ready before the timeout,
Cluster.start fails with ClusterStartTimeout and afterwards no party is in
the serving state (all-or-nothing startup). -/
theorem clusterStart_timeout (s : Sys) (ready : Nat → Bool)
    (h : ¬ (List.range s.parties.length).all ready = true) :
    (clusterStart s ready).2 = some Err.ClusterStartTimeout ∧
      ∀ p ∈ (clusterStart s ready).1.parties, p.running = false := by
  refine ⟨by simp [clusterStart, h], ?_⟩
  have hp' : (clusterStart s ready).1.parties
      = s.parties.map fun p => { p with running := false } := by
    simp [clusterStart, h]
  rw [hp']
  intro p hp
  simp only [List.mem_map] at hp
  obtain ⟨q, _, rfl⟩ := hp
  rfl

/-- Witness for C5: the three-worker notebook cluster with no party ready. -/
theorem clusterStart_timeout_witness :
    (¬ (List.range notebookInit.parties.length).all (fun _ => false) = true) ∧
    ((clusterStart notebookInit (fun _ => false)).2 = some Err.ClusterStartTimeout ∧
      ∀ p ∈ (clusterStart notebookInit (fun _ => false)).1.parties,
        p.running = false) :=
  ⟨by decide, clusterStart_timeout notebookInit (fun _ => false) (by decide)⟩

/-- C6: SecureModel.stop succeeds from every state, transitions the model to
Stopped and leaves the shares held by the parties unchanged; likewise a
request acceptance (in particular the one that exhausts the budget) leaves
the shares unchanged. -/
theorem stop_frame (s : Sys) :
    (modelStop s).2 = none ∧ (modelStop s).1.phase = Phase.Stopped ∧
    heldShares (modelStop s).1 = heldShares s ∧
    heldShares (request s).1 = heldShares s := by
  have hreq : (request s).1.parties = s.parties := by
    rcases hb : s.budget with _ | k <;>
      simp only [request, hb] <;> split_ifs <;> rfl
  exact ⟨rfl, rfl, rfl, by simp [heldShares, hreq]⟩

/-- C8: a second SecureModel.stop after a first one raises no fault and
leaves the model Stopped, and a second PartyRuntime.stop on any party fails
with AlreadyStopped — the single error-returning policy, adopted for every
party alike. -/
theorem stop_twice (s : Sys) (p : Party) :
    (modelStop (modelStop s).1).2 = none ∧
    (modelStop (modelStop s).1).1.phase = Phase.Stopped ∧
    (partyStop (partyStop p).1).2 = some Err.AlreadyStopped := by
  refine ⟨rfl, rfl, ?_⟩
  unfold partyStop
  by_cases h : p.stopped <;> simp [h]

/-- C9: in the notebook lifecycle, model.stop() precedes cluster.stop():
whatever the number j of prediction requests accepted, at the moment
cluster.stop() is invoked the SecureModel is Stopped, never still Serving. -/
theorem model_stopped_before_cluster_stop (j : Nat) :
    (beforeClusterStop j).phase = Phase.Stopped ∧
    (beforeClusterStop j).phase ≠ Phase.Serving :=
  ⟨rfl, fun h => Phase.noConfusion h⟩

/-- C3: a second share without an intervening reset always fails, because a
successful share leaves the Shared phase and share is valid only from Plain;
and share fails with ClusterNotReady whenever the cluster has not completed
start. -/
theorem share_twice_fails :
    (∀ (s : Sys) (d : Nat → Bool) (sl : Nat → Nat) (s2 : Sys),
      share s d sl = (s2, none) →
        ∀ (d2 : Nat → Bool) (sl2 : Nat → Nat), (share s2 d2 sl2).2 ≠ none) ∧
    ∀ (s : Sys) (d : Nat → Bool) (sl : Nat → Nat),
      s.clusterStarted = false → (share s d sl).2 = some Err.ClusterNotReady := by
  constructor
  · intro s d sl s2 h d2 sl2
    unfold share at h
    split_ifs at h with h1 h2 h3
    · simp at h
    · simp at h
    · rw [Prod.mk.injEq] at h
      obtain ⟨hs2, -⟩ := h
      subst hs2
      simp [share, h1]
    · simp at h
  · intro s d sl h
    simp [share, h]

/-- Witness for C3: sharing the notebook model after cluster start succeeds
once and fails the second time; sharing with the cluster never started fails
with ClusterNotReady. -/
theorem share_twice_fails_witness :
    (share readyPlainSys dTrue slId = ((share readyPlainSys dTrue slId).1, none)) ∧
    (share (share readyPlainSys dTrue slId).1 dTrue slId).2 ≠ none ∧
    unreadySys.clusterStarted = false ∧
    (share unreadySys dTrue slId).2 = some Err.ClusterNotReady :=
  ⟨by decide,
   share_twice_fails.1 readyPlainSys dTrue slId
     (share readyPlainSys dTrue slId).1 (by decide) dTrue slId,
   rfl,
   share_twice_fails.2 unreadySys dTrue slId rfl⟩

/-- C4: share is all-or-nothing: whenever it fails, the session state —
including every share slice held by every party — is exactly as before, so no
incomplete secret distribution is ever left in place. -/
theorem share_atomic (s : Sys) (d : Nat → Bool) (sl : Nat → Nat)
    (h : (share s d sl).2 ≠ none) : (share s d sl).1 = s := by
  unfold share at h ⊢
  split_ifs at h ⊢ <;> simp_all

/-- Witness for C4: a failing share (cluster never started) leaves the
session untouched. -/
theorem share_atomic_witness :
    (share unreadySys dTrue slId).2 ≠ none ∧ (share unreadySys dTrue slId).1 = unreadySys :=
  ⟨by decide, share_atomic unreadySys dTrue slId (by decide)⟩

/-- State of the serving loop after j ≤ k accepted requests under a finite
budget k: j requests are counted, the loop is Exhausted exactly when the
budget was reached by a served request, and the budget is unchanged. -/
theorem afterRequests_budget (k : Nat) (s : Sys) (hp : s.phase = Phase.Serving)
    (hs : s.served = 0) (hb : s.budget = some k) :
    ∀ j, j ≤ k →
      (afterRequests s j).phase
          = (if 0 < j ∧ j = k then Phase.Exhausted else Phase.Serving) ∧
      (afterRequests s j).served = j ∧
      (afterRequests s j).budget = some k := by
  intro j
  induction j with
  | zero =>
    intro _
    simp [afterRequests, hp, hs, hb]
  | succ j ih =>
    intro hj
    obtain ⟨h1, h2, h3⟩ := ih (Nat.le_of_succ_le hj)
    have hjk : j < k := Nat.lt_of_succ_le hj
    have h1s : (afterRequests s j).phase = Phase.Serving := by
      rw [h1]
      simp [Nat.ne_of_lt hjk]
    have hk : 0 < k := Nat.lt_of_le_of_lt (Nat.zero_le j) hjk
    by_cases he : j + 1 = k <;>
      simp [afterRequests, request, h1s, h2, h3, hjk, he, hk]

/-- State of the serving loop after j accepted requests with no budget
configured: every request is counted and the loop keeps Serving. -/
theorem afterRequests_nobudget (s : Sys) (hp : s.phase = Phase.Serving)
    (hb : s.budget = none) :
    ∀ j, (afterRequests s j).phase = Phase.Serving ∧
      (afterRequests s j).served = s.served + j ∧
      (afterRequests s j).budget = none := by
  intro j
  induction j with
  | zero => exact ⟨hp, rfl, hb⟩
  | succ j ih =>
    obtain ⟨h1, h2, h3⟩ := ih
    have hreq : request (afterRequests s j)
        = ({ afterRequests s j with
              served := (afterRequests s j).served + 1 }, none) := by
      simp [request, h1, h3]
    show (request (afterRequests s j)).1.phase = _ ∧
      (request (afterRequests s j)).1.served = _ ∧
      (request (afterRequests s j)).1.budget = _
    rw [hreq]
    refine ⟨h1, ?_, h3⟩
    show (afterRequests s j).served + 1 = s.served + (j + 1)
    omega

/-- C2: from a fresh serving loop with finite budget k, each of the first k
requests is accepted with no error, the request after the k-th fails with
BudgetExhausted, and with no budget configured every request succeeds for as
long as no stop intervenes. -/
theorem budget_semantics (k j : Nat) (s : Sys)
    (hp : s.phase = Phase.Serving) (hs : s.served = 0) :
    (s.budget = some k → j < k → (request (afterRequests s j)).2 = none) ∧
    (s.budget = some k →
      (request (afterRequests s k)).2 = some Err.BudgetExhausted) ∧
    (s.budget = none → (request (afterRequests s j)).2 = none) := by
  refine ⟨?_, ?_, ?_⟩
  · intro hb hjk
    obtain ⟨h1, h2, h3⟩ := afterRequests_budget k s hp hs hb j (Nat.le_of_lt hjk)
    have h1s : (afterRequests s j).phase = Phase.Serving := by
      rw [h1]
      simp [Nat.ne_of_lt hjk]
    simp [request, h1s, h2, h3, hjk]
  · intro hb
    rcases Nat.eq_zero_or_pos k with rfl | hk
    · have h0 : afterRequests s 0 = s := rfl
      rw [h0]
      simp [request, hp, hs, hb]
    · obtain ⟨h1, h2, h3⟩ := afterRequests_budget k s hp hs hb k le_rfl
      have h1e : (afterRequests s k).phase = Phase.Exhausted := by
        rw [h1]
        simp [hk]
      simp [request, h1e]
  · intro hb
    obtain ⟨h1, h2, h3⟩ := afterRequests_nobudget s hp hb j
    simp [request, h1, h3]

/-- Witness for C2 on the notebook-like serving session with budget 2: the
second request is accepted and the third fails with BudgetExhausted. -/
theorem budget_semantics_witness :
    servingSys.phase = Phase.Serving ∧ servingSys.served = 0 ∧
    servingSys.budget = some 2 ∧ 1 < 2 ∧
    (request (afterRequests servingSys 1)).2 = none ∧
    (request (afterRequests servingSys 2)).2 = some Err.BudgetExhausted :=
  ⟨by decide, by decide, by decide, by decide,
   (budget_semantics 2 1 servingSys (by decide) (by decide)).1 (by decide) (by decide),
   (budget_semantics 2 1 servingSys (by decide) (by decide)).2.1 (by decide)⟩

/-- C10: in externally managed mode, Cluster.stop leaves every worker
operating-system process exactly as it was; concretely, after the notebook
session (AUTO = False) runs cluster.stop() all three worker processes are
still alive, and they die only when the notebook kills them by process id. -/
theorem external_mode_processes_survive (s : Sys) (h : s.autoManaged = false) :
    (clusterStop s).1.parties.map Party.osAlive = s.parties.map Party.osAlive ∧
    (∀ p ∈ (clusterStop (beforeClusterStop 3)).1.parties, p.osAlive = true) ∧
    (∀ p ∈ (killWorkers (clusterStop (beforeClusterStop 3)).1).parties,
      p.osAlive = false) := by
  refine ⟨?_, by decide, by decide⟩
  simp [clusterStop, h]

/-- Witness for C10: the notebook session is externally managed. -/
theorem external_mode_processes_survive_witness :
    notebookInit.autoManaged = false ∧
    ((clusterStop notebookInit).1.parties.map Party.osAlive
        = notebookInit.parties.map Party.osAlive ∧
      (∀ p ∈ (clusterStop (beforeClusterStop 3)).1.parties, p.osAlive = true) ∧
      (∀ p ∈ (killWorkers (clusterStop (beforeClusterStop 3)).1).parties,
        p.osAlive = false)) :=
  ⟨rfl, external_mode_processes_survive notebookInit rfl⟩

end PySyftTFE
